import Mathlib

/-!
# Verification of the `rules` repository (CEL-backed rules engine)

Shallow embedding of the two source files:

* the `cel` engine package (`CELEngine`, `AddRule`, `addRuleWithSchema`,
  `compileRule`, `evaluate`, `Calculate`, `addSelf`, `celType`,
  `schemaToDeclarations`);
* the `rules` interface package (`rules.go`: `Result`, `RuleSet`,
  `EvaluateUntilTrue`), embedded in namespace `RulesPkg`.

Go maps are modelled as association lists with Go map semantics
(assignment overwrites the existing binding); Go `(T, error)` returns are
modelled with `Except`/`Option`; the in-place mutation of the caller's
data map is modelled by threading the map through the evaluation
functions.  The external CEL backend (cel-go) is modelled abstractly by a
`Backend` structure of compilation functions and by `Program` values,
which are functions from a data map to an `Except`-value, mirroring
`cel.Program.Eval`.
-/

/-- Runtime values flowing through the engine: the dynamic (`interface{}`)
values stored in the data map and returned by compiled programs.
`double` models Go `float64` (the engine never computes on floats, it only
type-asserts, so the carrier is irrelevant and `Rat` is used). -/
inductive Value : Type where
  | bool (b : Bool)
  | int (i : Int)
  | double (f : Rat)
  | str (s : String)
  deriving DecidableEq, Repr

/-- The caller's data map `map[string]interface{}`, as an association list. -/
def Data : Type := List (String × Value)

instance : DecidableEq Data := by
  unfold Data
  infer_instance

/-- Go map read `m[k]`. -/
def mapLookup {α : Type} (m : List (String × α)) (k : String) : Option α :=
  match m with
  | [] => none
  | (k', v) :: rest => if k' = k then some v else mapLookup rest k

/-- Go map assignment `m[k] = v`: overwrite the existing binding, else append. -/
def mapSet {α : Type} (m : List (String × α)) (k : String) (v : α) :
    List (String × α) :=
  match m with
  | [] => [(k, v)]
  | (k', v') :: rest =>
    if k' = k then (k, v) :: rest else (k', v') :: mapSet rest k v

/-- Go `delete(m, k)`: remove every binding of `k` (an association list
built by `mapSet` may carry shadowed duplicates; removing them all is the
observational behaviour of deleting the key from a Go map). -/
def mapDelete {α : Type} (m : List (String × α)) (k : String) :
    List (String × α) :=
  match m with
  | [] => []
  | (k', v') :: rest =>
    if k' = k then mapDelete rest k else (k', v') :: mapDelete rest k

/-- `rules.Type`: the closed set of schema type descriptors
(`String`, `Int`, `Float`, `Any`, `Bool`, `Duration`, `Timestamp`,
`List`, `Map` from the rules package). -/
inductive RType : Type where
  | string
  | int
  | float
  | any
  | bool
  | duration
  | timestamp
  | list (valueType : RType)
  | map (keyType : RType) (valueType : RType)
  deriving DecidableEq, Repr

/-- `rules.DataElement`: a named, typed schema variable (the engine reads
only `Name` and `Type` of a data element; the `Type` field is called
`type` here because `Type` is reserved in Lean). -/
structure DataElement : Type where
  Name : String
  type : RType
  deriving DecidableEq, Repr

/-- `rules.Schema`: identifier plus ordered data elements. -/
structure Schema : Type where
  ID : String := ""
  Elements : List DataElement := []
  deriving DecidableEq, Repr

/-- Modelled from the spec: `rules.EvalOptions` (the rules package that
declares this struct is not under `src/`; the fields are those read by the
engine source and listed in the spec's data model). -/
structure EvalOptions : Type where
  MaxDepth : Int
  ReturnPass : Bool
  ReturnFail : Bool
  StopIfParentNegative : Bool
  StopFirstPositiveChild : Bool
  StopFirstNegativeChild : Bool

/-- Modelled from the spec: a `rules.Option` is an override applied to an
`EvalOptions` value (the Go type is `func(*EvalOptions)`, applied by
`rules.ApplyOptions`, not under `src/`). -/
def EvalOption : Type := EvalOptions → EvalOptions

/-- Modelled from the spec: `rules.ApplyOptions` applies each override in
order to the inherited options. -/
def applyOptions (o : EvalOptions) (opts : List EvalOption) : EvalOptions :=
  match opts with
  | [] => o
  | f :: rest => applyOptions (f o) rest

mutual
/-- `rules.Rule`: recursive rule-tree node
{ID, Expr, Schema, Self, Meta, Action, Opts, Rules}. `Self`, `Meta` and
`Action` are `interface{}` fields (optional opaque values). -/
inductive Rule : Type where
  | mk (ID : String) (Expr : String) (Schema : Schema)
       (Self : Option Value) (Meta : Option Value) (Action : Option Value)
       (Opts : List EvalOption) (Rules : RuleList)

/-- The ordered children of a rule (`[]rules.Rule`). -/
inductive RuleList : Type where
  | nil
  | cons (head : Rule) (tail : RuleList)
end

def Rule.ID : Rule → String
  | .mk i _ _ _ _ _ _ _ => i

def Rule.Expr : Rule → String
  | .mk _ e _ _ _ _ _ _ => e

def Rule.Schema : Rule → Schema
  | .mk _ _ s _ _ _ _ _ => s

def Rule.Self : Rule → Option Value
  | .mk _ _ _ s _ _ _ _ => s

def Rule.Meta : Rule → Option Value
  | .mk _ _ _ _ m _ _ _ => m

def Rule.Action : Rule → Option Value
  | .mk _ _ _ _ _ a _ _ => a

def Rule.Opts : Rule → List EvalOption
  | .mk _ _ _ _ _ _ o _ => o

def Rule.Rules : Rule → RuleList
  | .mk _ _ _ _ _ _ _ r => r

/-- `rules.Result`: the result tree
{Meta, Action, RuleID, Results, Depth, Value, Pass}.  `Value` is an
`interface{}` field that is `nil` (`none`) until the evaluator sets it. -/
inductive Result : Type where
  | mk (Meta : Option Value) (Action : Option Value) (RuleID : String)
       (Results : List (String × Result)) (Depth : Int)
       (Value : Option Value) (Pass : Bool)

def Result.Meta : Result → Option Value
  | .mk m _ _ _ _ _ _ => m

def Result.Action : Result → Option Value
  | .mk _ a _ _ _ _ _ => a

def Result.RuleID : Result → String
  | .mk _ _ i _ _ _ _ => i

def Result.Results : Result → List (String × Result)
  | .mk _ _ _ r _ _ _ => r

def Result.Depth : Result → Int
  | .mk _ _ _ _ d _ _ => d

def Result.Value : Result → Option Value
  | .mk _ _ _ _ _ v _ => v

def Result.Pass : Result → Bool
  | .mk _ _ _ _ _ _ p => p

/-- Replace the `Results` map of a result (the evaluator's
`pr.Results[c.ID] = *res` map assignment). -/
def Result.setResults : Result → List (String × Result) → Result
  | .mk m a i _ d v p, rs => .mk m a i rs d v p

/-- A compiled CEL program (`cel.Program`): running it against a data map
yields a value or an evaluation error (`Program.Eval`). -/
def Program : Type := Data → Except String Value

/-- `CELEngine`: the engine's two flat indices, raw rules and compiled
programs, both keyed by rule id. -/
structure CELEngine : Type where
  rules : List (String × Rule)
  programs : List (String × Program)

/-- Modelled from the spec: `rules.SelfKey`, the reserved data-map key for
the `Self` value (declared in the rules package, not under `src/`). -/
def SelfKey : String := "self"

/-- `addSelf` (engine source): bind the rule's `Self` under the reserved
key if provided, otherwise delete the reserved key. -/
def addSelf (data : Data) (self : Option Value) : Data :=
  match self with
  | some v => mapSet data SelfKey v
  | none => mapDelete data SelfKey

/-- The evaluator's pass computation: `pr.Pass` is the returned value when
its runtime type is `bool`, and `false` otherwise
(`if v, ok := rawValue.Value().(bool); ok {...} else {...}`). -/
def passOf (v : Value) : Bool :=
  match v with
  | .bool b => b
  | _ => false

/-- Faults an `evaluate` call can end in: a returned evaluation error, or
the run-time panic from dereferencing a nil child-result pointer
(`res.Pass` with `res == nil`) in the stop-first-child checks. -/
inductive EvalErr : Type where
  | evalError (msg : String)
  | nilDeref
  deriving DecidableEq, Repr

/-- The child-admission condition of the evaluator's child loop:
`(!res.Pass && opt.ReturnFail) || (res.Pass && opt.ReturnPass)`. -/
def childAdmit (opt : EvalOptions) (r : Result) : Bool :=
  (!r.Pass && opt.ReturnFail) || (r.Pass && opt.ReturnPass)

/-- One admission step of the child loop: insert the child result under
the child's id when admitted, else leave the parent result unchanged. -/
def insertChild (opt : EvalOptions) (pr : Result) (cid : String)
    (r : Result) : Result :=
  if childAdmit opt r then pr.setResults (mapSet pr.Results cid r) else pr

/-- A stop-first-child check `flag && res.Pass == want` of the child loop.
Go evaluates `res.Pass` only when `flag` is true (short-circuit `&&`), and
dereferencing a nil `res` there panics: modelled as `EvalErr.nilDeref`. -/
def stopCheck (flag : Bool) (res : Option Result) (want : Bool) :
    Except EvalErr Bool :=
  if flag then
    match res with
    | none => .error .nilDeref
    | some r => .ok (r.Pass == want)
  else .ok false

mutual
/-- `evaluate` (engine source): recursively evaluate a rule and its
children.  Returns the possibly-nil result (`none` when the depth guard
trips) together with the caller's data map, which the leaf step mutates
in place via `addSelf`. -/
def evaluate (e : CELEngine) (data : Data) (rule : Rule) (n : Int)
    (opt : EvalOptions) : Except EvalErr (Option Result × Data) :=
  if n > opt.MaxDepth then .ok (none, data)
  else
    match rule with
    | .mk id _ _ self meta action opts children =>
      let opt := applyOptions opt opts
      let leaf : Except EvalErr (Result × Data) :=
        match mapLookup e.programs id with
        | some prog =>
          let data := addSelf data self
          match prog data with
          | .error msg =>
            .error (.evalError ("Error evaluating rule " ++ id ++ ":" ++ msg))
          | .ok raw => .ok (.mk meta action id [] n (some raw) (passOf raw), data)
        | none => .ok (.mk meta action id [] n (some (.bool true)) true, data)
      match leaf with
      | .error err => .error err
      | .ok (pr, data) =>
        if opt.StopIfParentNegative && !pr.Pass then .ok (some pr, data)
        else
          match evalChildren e data children n opt pr with
          | .error err => .error err
          | .ok (pr, data) => .ok (some pr, data)

/-- The child loop of `evaluate`: evaluate each child at depth `n+1`,
admit non-nil child results per `insertChild`, and apply the two
stop-first-child checks after each child. -/
def evalChildren (e : CELEngine) (data : Data) (cs : RuleList) (n : Int)
    (opt : EvalOptions) (pr : Result) : Except EvalErr (Result × Data) :=
  match cs with
  | .nil => .ok (pr, data)
  | .cons c rest =>
    match evaluate e data c (n + 1) opt with
    | .error err => .error err
    | .ok (res, data) =>
      let pr :=
        match res with
        | some r => insertChild opt pr c.ID r
        | none => pr
      match stopCheck opt.StopFirstPositiveChild res true with
      | .error err => .error err
      | .ok true => .ok (pr, data)
      | .ok false =>
        match stopCheck opt.StopFirstNegativeChild res false with
        | .error err => .error err
        | .ok true => .ok (pr, data)
        | .ok false => evalChildren e data rest n opt pr
end

/-- `strings.Trim(s, " ")` as used by `AddRule`: strip leading and
trailing space characters (only U+0020, not other whitespace). -/
def goTrim (s : String) : String :=
  String.mk (((s.toList.dropWhile (fun c => c = ' ')).reverse.dropWhile
    (fun c => c = ' ')).reverse)

/-- A CEL variable declaration type (`decls.String`, `decls.Int`, ...,
`decls.NewMapType`, `decls.NewListType`, `decls.Any`). -/
inductive CelDecl : Type where
  | string
  | int
  | double
  | bool
  | duration
  | timestamp
  | mapD (key : CelDecl) (value : CelDecl)
  | listD (value : CelDecl)
  | any
  deriving DecidableEq, Repr

/-- The declaration set produced from a schema: each element's name bound
to its CEL type (`decls.NewIdent(d.Name, typ, nil)`). -/
def CelDecls : Type := List (String × CelDecl)

/-- `celType` (engine source): convert a `rules.Type` to a CEL type; the
default case maps unknown variants (such as `rules.Any`) to `decls.Any`. -/
def celType (t : RType) : Except String CelDecl :=
  match t with
  | .string => .ok .string
  | .int => .ok .int
  | .float => .ok .double
  | .bool => .ok .bool
  | .duration => .ok .duration
  | .timestamp => .ok .timestamp
  | .map k v =>
    match celType k with
    | .error e => .error ("Setting key of map: " ++ e)
    | .ok key =>
      match celType v with
      | .error e => .error ("Setting value of map: " ++ e)
      | .ok val => .ok (.mapD key val)
  | .list v =>
    match celType v with
    | .error e => .error ("Setting value of list: " ++ e)
    | .ok val => .ok (.listD val)
  | .any => .ok .any

/-- The element loop of `schemaToDeclarations`: convert each element's
type, aborting at the first failing element. -/
def declsOfElements (els : List DataElement) : Except String CelDecls :=
  match els with
  | [] => .ok []
  | d :: rest =>
    match celType d.type with
    | .error e => .error e
    | .ok t =>
      match declsOfElements rest with
      | .error e => .error e
      | .ok ds => .ok ((d.Name, t) :: ds)

/-- `schemaToDeclarations` (engine source): convert a schema to the CEL
declaration set binding each element name to its converted type. -/
def schemaToDeclarations (s : Schema) : Except String CelDecls :=
  declsOfElements s.Elements

/-- The external CEL backend (cel-go), abstract: environment
construction, parsing, checking and program generation
(`cel.NewEnv`, `env.Parse`, `env.Check`, `env.Program`). -/
structure Backend : Type 1 where
  CelEnv : Type
  CelAst : Type
  newEnv : CelDecls → Except String CelEnv
  parse : CelEnv → String → Except String CelAst
  check : CelEnv → CelAst → Except String CelAst
  program : CelEnv → CelAst → Except String Program

/-- `compileRule` (engine source): parse, type-check and generate a
program for the rule's expression, wrapping each stage's failure with the
stage name and the rule id. -/
def compileRule (bk : Backend) (env : bk.CelEnv) (r : Rule) :
    Except String Program :=
  match bk.parse env r.Expr with
  | .error e => .error ("parsing rule " ++ r.ID ++ ", " ++ e)
  | .ok p =>
    match bk.check env p with
    | .error e => .error ("checking rule " ++ r.ID ++ ", " ++ e)
    | .ok c =>
      match bk.program env c with
      | .error e => .error ("generating program " ++ r.ID ++ ", " ++ e)
      | .ok prg => .ok prg

mutual
/-- `addRuleWithSchema` (engine source): pick the rule's own schema when
it has elements, else the ambient schema `s`; fail with "No valid schema"
when both are empty; compile the expression (if any) against the picked
schema's declarations and store the program; recurse into the children
with the picked schema as their ambient schema.  Returns the program
index as mutated so far together with an optional error, mirroring the Go
method's in-place mutation of `e.programs`. -/
def addRuleWithSchema (bk : Backend) (r : Rule) (s : Schema)
    (programs : List (String × Program)) :
    List (String × Program) × Option String :=
  match r with
  | .mk id expr sch self meta action opts children =>
    let pick : Option (Except String CelDecls × Schema) :=
      if sch.Elements.length > 0 then some (schemaToDeclarations sch, sch)
      else if s.Elements.length > 0 then some (schemaToDeclarations s, s)
      else none
    match pick with
    | none => (programs, some ("No valid schema for rule " ++ id))
    | some (.error e, _) => (programs, some e)
    | some (.ok decls, schemaToPassOn) =>
      match bk.newEnv decls with
      | .error e => (programs, some e)
      | .ok env =>
        if expr ≠ "" then
          match compileRule bk env (.mk id expr sch self meta action opts children) with
          | .error err => (programs, some ("compiling rule " ++ id ++ ": " ++ err))
          | .ok prg => addChildren bk children schemaToPassOn (mapSet programs id prg)
        else addChildren bk children schemaToPassOn programs

/-- The child loop of `addRuleWithSchema`: register each child under the
ambient schema, wrapping a child's failure with the child's id. -/
def addChildren (bk : Backend) (cs : RuleList) (s : Schema)
    (programs : List (String × Program)) :
    List (String × Program) × Option String :=
  match cs with
  | .nil => (programs, none)
  | .cons c rest =>
    match addRuleWithSchema bk c s programs with
    | (ps, some err) => (ps, some ("adding rule " ++ c.ID ++ ": " ++ err))
    | (ps, none) => addChildren bk rest s ps
end

/-- `AddRule` (engine source): for each rule in order, validate that the
id is non-empty after trimming spaces, register it (and its subtree) via
`addRuleWithSchema`, then store the raw rule in the flat rule index.  The
first failure stops the loop; rules already processed stay registered. -/
def AddRule (bk : Backend) (e : CELEngine) (rs : List Rule) :
    CELEngine × Option String :=
  match rs with
  | [] => (e, none)
  | r :: rest =>
    if (goTrim r.ID).length = 0 then
      (e, some ("Required rule ID for rule with expression " ++ r.Expr))
    else
      match addRuleWithSchema bk r r.Schema e.programs with
      | (ps, some err) => ({ e with programs := ps }, some err)
      | (ps, none) => AddRule bk { rules := mapSet e.rules r.ID r, programs := ps } rest

/-- `evaluateProgram` (engine source): run a stored program on the data
and return the raw value (`rawValue.Value()`). -/
def evaluateProgram (data : Data) (prg : Program) : Except String Value :=
  prg data

/-- The Go dynamic type name of a value, used in `Calculate`'s
conversion-error message (`%T`). -/
def valueTypeName : Value → String
  | .bool _ => "bool"
  | .int _ => "int64"
  | .double _ => "float64"
  | .str _ => "string"

/-- `Calculate`'s type assertion `result.(float64)`: succeed exactly on a
`float64` value, otherwise fail with the conversion error. -/
def floatAssert (v : Value) : Except String Rat :=
  match v with
  | .double f => .ok f
  | _ => .error ("Result, type " ++ valueTypeName v
      ++ " could not be converted to float64")

/-- The tail of `Calculate` once a program is at hand: evaluate it and
type-assert the result to `float64`. -/
def calcFrom (data : Data) (prg : Program) : Except String Rat :=
  match evaluateProgram data prg with
  | .error err => .error err
  | .ok v => floatAssert v

/-- `Calculate` (engine source): look up the cached program for the
expression string; if absent, register `Rule{ID: expr, Expr: expr,
Schema: schema}` through `AddRule` and fetch the program it stored; then
evaluate and convert to `float64`.  (If the expression is empty no
program is stored and the Go code would call `Eval` on a nil program and
panic; that dead branch is modelled as the corresponding runtime error.) -/
def Calculate (bk : Backend) (e : CELEngine) (data : Data) (expr : String)
    (schema : Schema) : CELEngine × Except String Rat :=
  match mapLookup e.programs expr with
  | some prg => (e, calcFrom data prg)
  | none =>
    match AddRule bk e [Rule.mk expr expr schema none none none [] .nil] with
    | (e', some err) => (e', .error err)
    | (e', none) =>
      match mapLookup e'.programs expr with
      | some prg => (e', calcFrom data prg)
      | none =>
        (e', .error "runtime error: invalid memory address or nil pointer dereference")

namespace RulesPkg

/-- `rules.Result` (rules.go): the flat per-rule result of the interface
package. -/
structure Result : Type where
  RuleSetID : String := ""
  RuleID : String := ""
  Pass : Bool := false
  Float64Value : Rat := 0
  Int64Value : Int := 0
  StringValue : String := ""
  ResultType : Option RType := none
  deriving DecidableEq, Repr

/-- `rules.SimpleRule` (rules.go): a rule is just its expression here. -/
structure SimpleRule : Type where
  Expr : String
  deriving DecidableEq, Repr

/-- `rules.RuleSet` (rules.go): a group of rules keyed by rule id.  The
Go field is a `map[string]Rule`, iterated in unspecified order; it is
modelled as an association list iterated in list order. -/
structure RuleSet : Type where
  ID : String := ""
  Rules : List (String × SimpleRule) := []
  SchemaOf : Schema := {}
  OutputType : Option RType := none

/-- The `rules.Engine` interface (rules.go), restricted to the two
methods `EvaluateUntilTrue` calls: rule-set lookup and single-rule
evaluation. -/
structure Engine : Type where
  ruleSet : String → Option RuleSet
  evaluateRule : Data → String → String → Except String Result

/-- The rule loop of `EvaluateUntilTrue`: evaluate each rule, stop at the
first `Pass` result; return the zero `Result` when none passes. -/
def evalLoop (e : Engine) (data : Data) (ruleSetID : String) :
    List (String × SimpleRule) → Except String Result
  | [] => .ok {}
  | (ruleID, _) :: rest =>
    match e.evaluateRule data ruleSetID ruleID with
    | .error err => .error ("Error evaluating rule: " ++ err)
    | .ok r => if r.Pass then .ok r else evalLoop e data ruleSetID rest

/-- `EvaluateUntilTrue` (rules.go): evaluate the rules of the set until
one passes; with no passing rule and no error it falls through to
`return Result{}, nil`. -/
def EvaluateUntilTrue (e : Engine) (data : Data) (ruleSetID : String) :
    Except String Result :=
  match e.ruleSet ruleSetID with
  | none => .error "Ruleset not found"
  | some rs => evalLoop e data ruleSetID rs.Rules

end RulesPkg

/-- Default-like evaluation options used by concrete examples: the
defaults `Evaluate` starts from (`ReturnFail`/`ReturnPass` on, a positive
depth bound, no stop options). -/
def baseOpts : EvalOptions :=
  { MaxDepth := 32, ReturnPass := true, ReturnFail := true,
    StopIfParentNegative := false, StopFirstPositiveChild := false,
    StopFirstNegativeChild := false }

/-- An engine with no rules and no compiled programs. -/
def emptyEngine : CELEngine := ⟨[], []⟩

/-- A child grouping rule with id "c". -/
def childC : Rule := .mk "c" "" {} none none none [] .nil

/-- A parent grouping rule with id "p" and single child `childC`. -/
def parentP : Rule := .mk "p" "" {} none none none [] (.cons childC .nil)

/-- Options with `MaxDepth := 0` (so any child at depth 1 is
depth-truncated) and `StopFirstNegativeChild` enabled. -/
def depth0StopNeg : EvalOptions :=
  { MaxDepth := 0, ReturnPass := true, ReturnFail := true,
    StopIfParentNegative := false, StopFirstPositiveChild := false,
    StopFirstNegativeChild := true }

/-- A program returning the non-boolean value `int 7`. -/
def progInt7 : Program := fun _ => .ok (.int 7)

/-- An engine holding `progInt7` as the compiled program of rule "r1". -/
def engInt7 : CELEngine := ⟨[], [("r1", progInt7)]⟩

/-- The rule "r1" carrying an expression. -/
def ruleR1 : Rule := .mk "r1" "x" {} none none none [] .nil

/-- A program that fails at run time. -/
def progBoom : Program := fun _ => .error "boom"

/-- An engine where the child "c" has a failing program and the parent
"p" has none. -/
def engBoom : CELEngine := ⟨[], [("c", progBoom)]⟩

/-- The parent result state before any child is processed, for the C4
witness. -/
def pr0 : Result := .mk none none "p" [] 0 none false

/-- The concrete child result of evaluating the grouping child `childC`
at depth 1. -/
def rcW : Result := .mk none none "c" [] 1 (some (.bool true)) true

/-- A program returning the boolean `false`. -/
def progFalse : Program := fun _ => .ok (.bool false)

/-- An engine where rule "r1" has a program returning `false`. -/
def engFalse : CELEngine := ⟨[], [("r1", progFalse)]⟩

/-- Options with `StopIfParentNegative` enabled. -/
def optParentNeg : EvalOptions :=
  { MaxDepth := 32, ReturnPass := true, ReturnFail := true,
    StopIfParentNegative := true, StopFirstPositiveChild := false,
    StopFirstNegativeChild := false }

/-- A trivial concrete instance of the abstract CEL backend, for
witnesses: every stage succeeds and compiled programs return `true`. -/
def trivialBackend : Backend :=
  { CelEnv := Unit, CelAst := Unit,
    newEnv := fun _ => .ok (), parse := fun _ _ => .ok (),
    check := fun _ _ => .ok (),
    program := fun _ _ => .ok (fun _ => .ok (.bool true)) }

/-- A rule whose id is a single tab character, with a valid schema and no
expression. -/
def tabRule : Rule :=
  .mk "\t" "" { ID := "s", Elements := [{ Name := "x", type := .int }] }
    none none none [] .nil

/-- A rule whose id is two spaces. -/
def spacesRule : Rule := .mk "  " "x" {} none none none [] .nil

/-- Interpretation of claim C8's "numeric (float-convertible)" predicate:
integers and floats are numeric values. -/
def floatConvertible : Value → Bool
  | .int _ => true
  | .double _ => true
  | _ => false

/-- The program a CEL backend produces for "a+b" over an Int schema: CEL
integer addition yields an integer (int64), here 2+3 = 5. -/
def progAplusB : Program := fun _ => .ok (.int 5)

/-- An engine with `progAplusB` cached under the expression string. -/
def engAplusB : CELEngine := ⟨[], [("a+b", progAplusB)]⟩

/-- The data map {a: 2, b: 3}. -/
def dataAB : Data := [("a", .int 2), ("b", .int 3)]

/-- The schema {a: Int, b: Int}. -/
def schemaAB : Schema :=
  { ID := "", Elements := [{ Name := "a", type := .int },
                           { Name := "b", type := .int }] }

/-- A program returning the float64 value 5.0. -/
def progDouble5 : Program := fun _ => .ok (.double 5)

/-- An engine with `progDouble5` cached under "a+b". -/
def engDouble5 : CELEngine := ⟨[], [("a+b", progDouble5)]⟩

/-- A concrete rule set with one rule. -/
def rsW : RulesPkg.RuleSet := { ID := "rs", Rules := [("r1", ⟨"x"⟩)] }

/-- A concrete engine whose only rule set is `rsW` and whose rule
evaluation always yields a non-passing result. -/
def rEngW : RulesPkg.Engine :=
  { ruleSet := fun i => if i = "rs" then some rsW else none,
    evaluateRule := fun _ _ _ => .ok { Pass := false } }

theorem mapLookup_mapSet_self {α : Type} (m : List (String × α)) (k : String) (v : α) :
    mapLookup (mapSet m k v) k = some v := by
  induction m with
  | nil => simp [mapSet, mapLookup]
  | cons hd tl ih =>
    obtain ⟨k', v'⟩ := hd
    by_cases h : k' = k <;> simp [mapSet, mapLookup, h, ih]

theorem mapLookup_mapSet_ne {α : Type} (m : List (String × α)) (k k' : String) (v : α)
    (h : k' ≠ k) : mapLookup (mapSet m k v) k' = mapLookup m k' := by
  induction m with
  | nil => simp [mapSet, mapLookup, Ne.symm h]
  | cons hd tl ih =>
    obtain ⟨k0, v0⟩ := hd
    by_cases h0 : k0 = k
    · subst h0
      simp [mapSet, mapLookup, Ne.symm h]
    · simp [mapSet, mapLookup, h0, ih]

theorem mapLookup_mapDelete_self {α : Type} (m : List (String × α)) (k : String) :
    mapLookup (mapDelete m k) k = none := by
  induction m with
  | nil => simp [mapDelete, mapLookup]
  | cons hd tl ih =>
    obtain ⟨k0, v0⟩ := hd
    by_cases h0 : k0 = k <;> simp [mapDelete, mapLookup, h0, ih]

theorem mapLookup_mapDelete_ne {α : Type} (m : List (String × α)) (k k' : String)
    (h : k' ≠ k) : mapLookup (mapDelete m k) k' = mapLookup m k' := by
  induction m with
  | nil => simp [mapDelete]
  | cons hd tl ih =>
    obtain ⟨k0, v0⟩ := hd
    by_cases h0 : k0 = k
    · subst h0
      simp [mapDelete, mapLookup, Ne.symm h, ih]
    · simp [mapDelete, mapLookup, h0, ih]

theorem Result.setResults_Pass (pr : Result) (rs : List (String × Result)) :
    (pr.setResults rs).Pass = pr.Pass := by
  cases pr
  rfl

theorem Result.setResults_Value (pr : Result) (rs : List (String × Result)) :
    (pr.setResults rs).Value = pr.Value := by
  cases pr
  rfl

theorem insertChild_Pass (opt : EvalOptions) (pr : Result) (cid : String) (r : Result) :
    (insertChild opt pr cid r).Pass = pr.Pass := by
  unfold insertChild
  split
  · exact Result.setResults_Pass pr _
  · rfl

theorem insertChild_Value (opt : EvalOptions) (pr : Result) (cid : String) (r : Result) :
    (insertChild opt pr cid r).Value = pr.Value := by
  unfold insertChild
  split
  · exact Result.setResults_Value pr _
  · rfl

theorem passOf_eq_true_iff (v : Value) : passOf v = true ↔ v = .bool true := by
  cases v <;> simp [passOf]

-- preservation through the child loop
theorem evalChildren_preserves (e : CELEngine) :
    ∀ (cs : RuleList) (data : Data) (n : Int) (opt : EvalOptions)
      (pr pr' : Result) (d' : Data),
    evalChildren e data cs n opt pr = .ok (pr', d') →
    pr'.Pass = pr.Pass ∧ pr'.Value = pr.Value
  | .nil, data, n, opt, pr, pr', d', h => by
    rw [evalChildren] at h
    injection h with h
    injection h with h1 h2
    subst h1
    exact ⟨rfl, rfl⟩
  | .cons c rest, data, n, opt, pr, pr', d', h => by
    rw [evalChildren] at h
    cases hev : evaluate e data c (n + 1) opt with
    | error err => simp [hev] at h
    | ok p =>
      obtain ⟨res, data1⟩ := p
      rw [hev] at h
      dsimp only at h
      cases res with
      | none =>
        cases hp1 : opt.StopFirstPositiveChild <;> rw [hp1] at h <;>
          cases hp2 : opt.StopFirstNegativeChild <;> rw [hp2] at h <;>
          simp only [stopCheck, if_pos, if_neg, Bool.false_eq_true,
            reduceIte] at h
        · exact evalChildren_preserves e rest data1 n opt pr pr' d' h
        · cases h
        · cases h
        · cases h
      | some r =>
        have hins : (insertChild opt pr c.ID r).Pass = pr.Pass ∧
            (insertChild opt pr c.ID r).Value = pr.Value :=
          ⟨insertChild_Pass _ _ _ _, insertChild_Value _ _ _ _⟩
        cases hp1 : opt.StopFirstPositiveChild <;> rw [hp1] at h <;>
          cases hp2 : opt.StopFirstNegativeChild <;> rw [hp2] at h <;>
          cases hrp : r.Pass <;>
          simp [stopCheck, hrp] at h
        all_goals
          first
          | (obtain ⟨h1, h2⟩ := h
             exact h1 ▸ hins)
          | (obtain ⟨a, b⟩ := evalChildren_preserves e rest data1 n opt _ pr' d' h
             exact ⟨a.trans hins.1, b.trans hins.2⟩)

/-- Claim C1: with `StopFirstNegativeChild` enabled and `MaxDepth := 0`,
the child's recursive evaluation returns a nil result, and the parent's
evaluation does not complete without fault: the stop-first-child check
dereferences the nil child result (`res.Pass` with `res == nil`), a
run-time panic, modelled as `EvalErr.nilDeref`.  The code therefore
violates the claim that a nil child result never triggers either stop
condition; the claim (and the spec's step 6) describe the intended
behaviour, the dereference is the slip the spec itself flags as an
inherited defect. -/
theorem C1_nil_child_with_stop_option_panics :
    evaluate emptyEngine [] parentP 0 depth0StopNeg = .error .nilDeref := rfl

/-- Claim C2 (confirmed): when a rule has a stored compiled program and
the program's execution succeeds with raw value `v`, any result `evaluate`
returns for that rule carries `Value = v` and passes iff `v` is the
boolean `true`; any non-boolean value yields `Pass = false`. -/
theorem C2_program_value_and_pass (e : CELEngine) (data : Data)
    (rule : Rule) (n : Int) (opt : EvalOptions) (prog : Program) (v : Value)
    (res : Result) (d' : Data)
    (h1 : mapLookup e.programs rule.ID = some prog)
    (h2 : prog (addSelf data rule.Self) = .ok v)
    (h3 : evaluate e data rule n opt = .ok (some res, d')) :
    res.Value = some v ∧ (res.Pass = true ↔ v = .bool true) := by
  cases rule with
  | mk id expr sch self meta action opts children =>
    simp only [Rule.ID] at h1
    simp only [Rule.Self] at h2
    rw [evaluate] at h3
    by_cases hd : n > opt.MaxDepth
    · rw [if_pos hd] at h3
      simp at h3
    · rw [if_neg hd] at h3
      dsimp only at h3
      rw [h1] at h3
      dsimp only at h3
      rw [h2] at h3
      dsimp only [Result.Pass] at h3
      split at h3
      · injection h3 with h3
        injection h3 with ha hb
        injection ha with ha
        subst ha
        exact ⟨rfl, passOf_eq_true_iff v⟩
      · cases hec : evalChildren e (addSelf data self) children n
            (applyOptions opt opts)
            (.mk meta action id [] n (some v) (passOf v)) with
        | error err => rw [hec] at h3; cases h3
        | ok p =>
          obtain ⟨pr2, d2⟩ := p
          rw [hec] at h3
          injection h3 with h3
          injection h3 with ha hb
          injection ha with ha
          subst ha
          obtain ⟨hp, hv⟩ := evalChildren_preserves e children _ _ _ _ _ _ hec
          refine ⟨hv.trans rfl, ?_⟩
          rw [hp]
          exact passOf_eq_true_iff v

/-- Witness for C2 at a concrete input: rule "r1"'s program returns the
non-boolean `int 7`, and the result's value is `int 7` with `Pass`
equivalent to the false statement that `int 7` is the boolean `true`. -/
theorem C2_witness :
    (Result.mk none none "r1" [] 0 (some (.int 7)) false).Value = some (.int 7)
  ∧ ((Result.mk none none "r1" [] 0 (some (.int 7)) false).Pass = true
      ↔ (Value.int 7) = .bool true) :=
  C2_program_value_and_pass engInt7 [] ruleR1 0 baseOpts progInt7 (.int 7)
    (.mk none none "r1" [] 0 (some (.int 7)) false) [] rfl rfl rfl

/-- Claim C3 counterexample: `parentP` has no stored program, yet
`evaluate` on it does not return a Result at all — its child's program
fails, so the whole call returns an error.  This refutes the claim that
for every data map and options a rule without a program evaluates to a
Result with `Value`/`Pass` true. -/
theorem C3_counterexample :
    mapLookup engBoom.programs parentP.ID = none
  ∧ evaluate engBoom [] parentP 0 baseOpts
      = .error (.evalError "Error evaluating rule c:boom") := ⟨rfl, rfl⟩

/-- Claim C3 as amended: for a rule with no stored program, whenever
`evaluate` does return a (non-nil) Result — the depth guard did not trip
and no descendant evaluation faulted — that Result has `Pass = true` and
`Value = true`. -/
theorem C3_amended_grouping_pass_true (e : CELEngine) (data : Data)
    (rule : Rule) (n : Int) (opt : EvalOptions) (res : Result) (d' : Data)
    (h1 : mapLookup e.programs rule.ID = none)
    (h3 : evaluate e data rule n opt = .ok (some res, d')) :
    res.Pass = true ∧ res.Value = some (.bool true) := by
  cases rule with
  | mk id expr sch self meta action opts children =>
    simp only [Rule.ID] at h1
    rw [evaluate] at h3
    by_cases hd : n > opt.MaxDepth
    · rw [if_pos hd] at h3
      simp at h3
    · rw [if_neg hd] at h3
      dsimp only at h3
      rw [h1] at h3
      dsimp only [Result.Pass] at h3
      simp only [Bool.not_true, Bool.and_false, Bool.false_eq_true,
        if_false] at h3
      cases hec : evalChildren e data children n (applyOptions opt opts)
          (.mk meta action id [] n (some (.bool true)) true) with
      | error err => rw [hec] at h3; cases h3
      | ok p =>
        obtain ⟨pr2, d2⟩ := p
        rw [hec] at h3
        injection h3 with h3
        injection h3 with ha hb
        injection ha with ha
        subst ha
        obtain ⟨hp, hv⟩ := evalChildren_preserves e children _ _ _ _ _ _ hec
        exact ⟨hp.trans rfl, hv.trans rfl⟩

/-- Witness for the amended C3 at a concrete input: the grouping rule
"c", evaluated on an engine with no programs, yields a passing Result
with `Value = true`. -/
theorem C3_witness :
    (Result.mk none none "c" [] 0 (some (.bool true)) true).Pass = true
  ∧ (Result.mk none none "c" [] 0 (some (.bool true)) true).Value
      = some (.bool true) :=
  C3_amended_grouping_pass_true emptyEngine [] childC 0 baseOpts
    (.mk none none "c" [] 0 (some (.bool true)) true) [] rfl rfl

theorem Result.setResults_Results (pr : Result) (rs : List (String × Result)) :
    (pr.setResults rs).Results = rs := by
  cases pr
  rfl

/-- Claim C4 (confirmed): for a child whose recursive evaluation returns
a non-nil result `r`, the child loop proceeds with (and on an early stop
returns) the parent result produced by `insertChild`, and `insertChild`
binds `r` under the child's id in the parent's Results map exactly when
(`r` failed and `ReturnFail` is set) or (`r` passed and `ReturnPass` is
set). -/
theorem C4_child_admission (e : CELEngine) (data d' : Data) (c : Rule)
    (cs : RuleList) (n : Int) (opt : EvalOptions) (pr r : Result)
    (h1 : evaluate e data c (n + 1) opt = .ok (some r, d'))
    (h2 : mapLookup pr.Results c.ID = none) :
    (evalChildren e data (.cons c cs) n opt pr
      = if opt.StopFirstPositiveChild && r.Pass then
          .ok (insertChild opt pr c.ID r, d')
        else if opt.StopFirstNegativeChild && !r.Pass then
          .ok (insertChild opt pr c.ID r, d')
        else evalChildren e d' cs n opt (insertChild opt pr c.ID r))
    ∧ (mapLookup (insertChild opt pr c.ID r).Results c.ID = some r
        ↔ ((r.Pass = false ∧ opt.ReturnFail = true)
            ∨ (r.Pass = true ∧ opt.ReturnPass = true))) := by
  constructor
  · rw [evalChildren, h1]
    dsimp only
    cases hp1 : opt.StopFirstPositiveChild <;>
      cases hp2 : opt.StopFirstNegativeChild <;>
      cases hrp : r.Pass <;>
      simp [stopCheck, hp1, hp2, hrp]
  · cases hrf : opt.ReturnFail <;> cases hrpass : opt.ReturnPass <;>
      cases hrp : r.Pass <;>
      simp [insertChild, childAdmit, hrf, hrpass, hrp,
        Result.setResults_Results, mapLookup_mapSet_self, h2]

/-- Claim C5 (confirmed): when the merged options have
`StopIfParentNegative` and the rule's own evaluation yields `Pass=false`
(its program returns a value that is not the boolean `true`), `evaluate`
returns immediately with an empty Results map, and the children are never
evaluated: the outcome is the same for every list of children. -/
theorem C5_stop_if_parent_negative (e : CELEngine) (data : Data)
    (id expr : String) (sch : Schema) (self meta action : Option Value)
    (opts : List EvalOption) (children : RuleList) (n : Int)
    (opt : EvalOptions) (prog : Program) (v : Value)
    (h0 : ¬ n > opt.MaxDepth)
    (h1 : (applyOptions opt opts).StopIfParentNegative = true)
    (h2 : mapLookup e.programs id = some prog)
    (h3 : prog (addSelf data self) = .ok v)
    (h4 : passOf v = false) :
    evaluate e data (.mk id expr sch self meta action opts children) n opt
      = .ok (some (.mk meta action id [] n (some v) false),
             addSelf data self) := by
  rw [evaluate, if_neg h0]
  dsimp only
  rw [h2]
  dsimp only
  rw [h3]
  dsimp only [Result.Pass]
  rw [h4, h1]
  rfl

/-- Witness for C4 at a concrete input: the grouping child "c" evaluates
to a passing result at depth 1, the loop continues with the inserted
result, and insertion happened since `ReturnPass` is set. -/
theorem C4_witness :
    (evalChildren emptyEngine [] (.cons childC .nil) 0 baseOpts pr0
      = if baseOpts.StopFirstPositiveChild && rcW.Pass then
          .ok (insertChild baseOpts pr0 childC.ID rcW, [])
        else if baseOpts.StopFirstNegativeChild && !rcW.Pass then
          .ok (insertChild baseOpts pr0 childC.ID rcW, [])
        else evalChildren emptyEngine [] .nil 0 baseOpts
          (insertChild baseOpts pr0 childC.ID rcW))
  ∧ (mapLookup (insertChild baseOpts pr0 childC.ID rcW).Results childC.ID
      = some rcW
      ↔ ((rcW.Pass = false ∧ baseOpts.ReturnFail = true)
          ∨ (rcW.Pass = true ∧ baseOpts.ReturnPass = true))) :=
  C4_child_admission emptyEngine [] [] childC .nil 0 baseOpts pr0 rcW rfl rfl

/-- Witness for C5 at a concrete input: rule "r1" fails and
`StopIfParentNegative` is set, so `evaluate` returns the parent result
with an empty Results map even though a child is present. -/
theorem C5_witness :
    evaluate engFalse []
      (.mk "r1" "x" {} none none none [] (.cons childC .nil)) 0 optParentNeg
      = .ok (some (.mk none none "r1" [] 0 (some (.bool false)) false),
             addSelf [] none) :=
  C5_stop_if_parent_negative engFalse [] "r1" "x" {} none none none []
    (.cons childC .nil) 0 optParentNeg progFalse (.bool false)
    (by decide) rfl rfl rfl rfl

/-- Claim C6 (confirmed): schema resolution during registration.  If both
the rule's own schema and the ambient schema are empty, registration
fails with "No valid schema for rule R" (for any expression, including
none).  If the rule's own schema is non-empty, the ambient schema is
irrelevant: the rule is compiled against its own schema, which also
becomes the children's ambient schema.  If the rule's own schema is
empty, registration behaves exactly as if the rule carried the ambient
schema `S` as its own — `S` is used for compilation and propagates
unchanged. -/
theorem C6_schema_resolution (bk : Backend) (id expr : String)
    (sch : Schema) (self meta action : Option Value)
    (opts : List EvalOption) (children : RuleList) (s : Schema)
    (ps : List (String × Program)) :
    ((sch.Elements = [] ∧ s.Elements = []) →
      addRuleWithSchema bk (.mk id expr sch self meta action opts children) s ps
        = (ps, some ("No valid schema for rule " ++ id)))
  ∧ (sch.Elements ≠ [] → ∀ s' : Schema,
      addRuleWithSchema bk (.mk id expr sch self meta action opts children) s' ps
        = addRuleWithSchema bk (.mk id expr sch self meta action opts children)
            sch ps)
  ∧ (sch.Elements = [] →
      addRuleWithSchema bk (.mk id expr sch self meta action opts children) s ps
        = addRuleWithSchema bk (.mk id expr s self meta action opts children)
            s ps) := by
  refine ⟨?_, ?_, ?_⟩
  · rintro ⟨hr, hs⟩
    rw [addRuleWithSchema]
    simp [hr, hs]
  · intro hne s'
    have hlen : sch.Elements.length > 0 := List.length_pos.mpr hne
    rw [addRuleWithSchema, addRuleWithSchema]
    simp [hlen]
  · intro hr
    rw [addRuleWithSchema, addRuleWithSchema]
    by_cases hs : s.Elements.length > 0
    · simp [hr, hs, compileRule, Rule.ID, Rule.Expr]
    · simp [hr, hs]

/-- Witness for C6 at a concrete input: a pure grouping rule "g" with no
expression, no own schema and empty ambient schema is rejected with the
"No valid schema" error. -/
theorem C6_witness :
    addRuleWithSchema trivialBackend (.mk "g" "" {} none none none [] .nil)
      {} [] = ([], some "No valid schema for rule g") :=
  (C6_schema_resolution trivialBackend "g" "" {} none none none [] .nil
    {} []).1 ⟨rfl, rfl⟩

/-- Claim C7 counterexample: `AddRule` trims only space characters, not
all whitespace: a rule whose id is the tab character "\t" (whitespace
only) is accepted and registered with no error, refuting the claim that
every whitespace-only id is rejected. -/
theorem C7_counterexample :
    goTrim "\t" = "\t"
  ∧ AddRule trivialBackend ⟨[], []⟩ [tabRule]
      = (⟨[("\t", tabRule)], []⟩, none) := ⟨rfl, rfl⟩

/-- Claim C7 as amended: a rule whose id is empty after trimming space
(U+0020) characters is rejected by `AddRule` with the validation error,
and the engine is left unchanged (the rule is not registered); ids made
of other whitespace (tabs, newlines) are not rejected. -/
theorem C7_amended_space_trim_validation (bk : Backend) (e : CELEngine)
    (r : Rule) (rest : List Rule) (h : goTrim r.ID = "") :
    AddRule bk e (r :: rest)
      = (e, some ("Required rule ID for rule with expression " ++ r.Expr)) := by
  rw [AddRule]
  simp [h]

/-- Witness for the amended C7: the all-spaces id "  " is rejected and
the engine stays empty. -/
theorem C7_witness :
    AddRule trivialBackend emptyEngine [spacesRule]
      = (emptyEngine, some "Required rule ID for rule with expression x") :=
  C7_amended_space_trim_validation trivialBackend emptyEngine spacesRule [] rfl

/-- Claim C8 counterexample: the stored program for "a+b" returns the
numeric (float-convertible) value `int 5`, yet `Calculate` fails with the
conversion error — Go's `result.(float64)` assertion rejects `int64` —
so `Calculate` does not return 5.0 here and does not fail "exactly when
the result is not numeric". -/
theorem C8_counterexample :
    floatConvertible (.int 5) = true
  ∧ progAplusB dataAB = .ok (.int 5)
  ∧ Calculate trivialBackend engAplusB dataAB "a+b" schemaAB
      = (engAplusB,
         .error "Result, type int64 could not be converted to float64") :=
  ⟨rfl, rfl, rfl⟩

/-- Claim C8 as amended: for a cached expression, `Calculate` leaves the
engine unchanged, returns `f` exactly when the program's result is the
float64 value `f`, and fails (with the conversion error) exactly when the
result's runtime type is not float64 — integer results are rejected, not
widened. -/
theorem C8_amended_calculate_requires_float64 (bk : Backend)
    (e : CELEngine) (data : Data) (expr : String) (schema : Schema)
    (prg : Program) (v : Value)
    (h1 : mapLookup e.programs expr = some prg)
    (h2 : prg data = .ok v) :
    ((Calculate bk e data expr schema).1 = e)
  ∧ (∀ f : Rat, (Calculate bk e data expr schema).2 = .ok f ↔ v = .double f)
  ∧ ((∃ msg, (Calculate bk e data expr schema).2 = .error msg)
      ↔ ∀ f : Rat, v ≠ .double f) := by
  rw [Calculate, h1]
  refine ⟨rfl, ?_, ?_⟩ <;>
    simp only [calcFrom, evaluateProgram, h2] <;>
    cases v <;>
    simp [floatAssert]

/-- Witness for the amended C8: with a cached program returning the
float64 value 5.0, `Calculate` returns 5.0. -/
theorem C8_witness :
    (Calculate trivialBackend engDouble5 dataAB "a+b" schemaAB).2 = .ok 5 :=
  ((C8_amended_calculate_requires_float64 trivialBackend engDouble5 dataAB
      "a+b" schemaAB progDouble5 (.double 5) rfl rfl).2.1 5).mpr rfl

/-- Claim C9 (confirmed): the Self-injection step binds exactly the
reserved key: after `addSelf`, the reserved key is bound to the rule's
Self value when set and absent when unset (so a stale sibling value never
leaks), and every other key of the data map is unchanged. -/
theorem C9_addSelf_self_key_frame (data : Data) (self : Option Value) :
    mapLookup (addSelf data self) SelfKey = self
  ∧ ∀ k, k ≠ SelfKey → mapLookup (addSelf data self) k = mapLookup data k := by
  constructor
  · cases self with
    | some v => exact mapLookup_mapSet_self data SelfKey v
    | none => exact mapLookup_mapDelete_self data SelfKey
  · intro k hk
    cases self with
    | some v => exact mapLookup_mapSet_ne data SelfKey k v hk
    | none => exact mapLookup_mapDelete_ne data SelfKey k hk

/-- Witness for C9 at a concrete input: injecting Self = 7 into
{x: 1, self: 9} binds the reserved key to 7 and leaves "x" unchanged;
injecting an unset Self removes the stale binding. -/
theorem C9_witness :
    mapLookup (addSelf [("x", .int 1), ("self", .int 9)] (some (.int 7)))
      SelfKey = some (.int 7)
  ∧ mapLookup (addSelf [("x", .int 1), ("self", .int 9)] (some (.int 7))) "x"
      = mapLookup [("x", .int 1), ("self", .int 9)] "x"
  ∧ mapLookup (addSelf [("x", .int 1), ("self", .int 9)] none) SelfKey
      = none :=
  ⟨(C9_addSelf_self_key_frame [("x", .int 1), ("self", .int 9)]
      (some (.int 7))).1,
   (C9_addSelf_self_key_frame [("x", .int 1), ("self", .int 9)]
      (some (.int 7))).2 "x" (by decide),
   (C9_addSelf_self_key_frame [("x", .int 1), ("self", .int 9)] none).1⟩

/-- If every rule in the list evaluates without error to a non-passing
result, the loop of `EvaluateUntilTrue` falls through to the zero
`Result`. -/
theorem RulesPkg.evalLoop_all_false (e : RulesPkg.Engine) (data : Data)
    (ruleSetID : String) :
    ∀ l : List (String × RulesPkg.SimpleRule),
    (∀ rid sr, (rid, sr) ∈ l →
      ∃ r, e.evaluateRule data ruleSetID rid = .ok r ∧ r.Pass = false) →
    RulesPkg.evalLoop e data ruleSetID l = .ok {}
  | [], _ => rfl
  | (rid, sr) :: rest, h => by
    obtain ⟨r, hr, hp⟩ := h rid sr (by simp)
    rw [RulesPkg.evalLoop, hr]
    simp only [hp, Bool.false_eq_true, if_false]
    exact RulesPkg.evalLoop_all_false e data ruleSetID rest
      (fun rid' sr' hm => h rid' sr' (List.mem_cons_of_mem _ hm))

/-- Claim C10 (confirmed): when the rule set exists and every rule of the
set evaluates without error to a non-passing result, `EvaluateUntilTrue`
returns the zero-value `Result` (empty ids, `Pass = false`) with no
error, not a nil result. -/
theorem C10_until_true_zero_result (e : RulesPkg.Engine) (data : Data)
    (ruleSetID : String) (rs : RulesPkg.RuleSet)
    (h1 : e.ruleSet ruleSetID = some rs)
    (h2 : ∀ rid sr, (rid, sr) ∈ rs.Rules →
      ∃ r, e.evaluateRule data ruleSetID rid = .ok r ∧ r.Pass = false) :
    RulesPkg.EvaluateUntilTrue e data ruleSetID
      = .ok { RuleSetID := "", RuleID := "", Pass := false,
              Float64Value := 0, Int64Value := 0, StringValue := "",
              ResultType := none } := by
  rw [RulesPkg.EvaluateUntilTrue, h1]
  exact RulesPkg.evalLoop_all_false e data ruleSetID rs.Rules h2

/-- Witness for C10 at a concrete input: a one-rule set where the rule
does not pass yields the zero `Result` and no error. -/
theorem C10_witness :
    RulesPkg.EvaluateUntilTrue rEngW [] "rs"
      = .ok { RuleSetID := "", RuleID := "", Pass := false,
              Float64Value := 0, Int64Value := 0, StringValue := "",
              ResultType := none } :=
  C10_until_true_zero_result rEngW [] "rs" rsW rfl
    (by
      intro rid sr hm
      simp only [rsW, List.mem_singleton, Prod.mk.injEq] at hm
      exact ⟨{ Pass := false }, rfl, rfl⟩)
